import Mathlib

/-!
Verification of the eco-usd-news-alert scheduling core.

The JavaScript source is shallowly embedded: absolute instants are epoch
milliseconds as `Int`; `Intl.DateTimeFormat` with a named timezone is
modelled for `Asia/Ho_Chi_Minh` (a fixed UTC+7 zone, no DST since 1975) as
a fixed millisecond offset, and wall-clock components are computed with the
proleptic-Gregorian civil-from-days algorithm; stateful modules
(`monthlyCronRegistrar.service.js`, `dailyAlert.cron.js`) become explicit
state-passing functions over registry states, with `node-cron` tasks
modelled as records carrying the cron-expression components, the timezone
option passed to `cron.schedule` (or its absence), and a stopped flag.
-/

namespace EcoNews

/-- Milliseconds in one hour (`60 * 60 * 1000` in the source). -/
def hourMs : Int := 3600000

/-- Milliseconds in one minute. -/
def minuteMs : Int := 60000

/-- Milliseconds in one civil day. -/
def dayMs : Int := 86400000

/-- Fixed offset of `Asia/Ho_Chi_Minh` (UTC+7) in milliseconds.  Both
`TARGET_TIMEZONE` in `timezone.service.js` and the default
`config.scheduler.timezone` are this zone. -/
def hcmcOffsetMs : Int := 25200000

/-- Proleptic-Gregorian date of a day number counted from 1970-01-01
(standard civil-from-days algorithm, floor divisions).  This is what
`Intl.DateTimeFormat` yields for year/month/day in a fixed-offset zone. -/
def civilFromDays (z0 : Int) : Int × Int × Int :=
  let z := z0 + 719468
  let era := Int.fdiv z 146097
  let doe := z - era * 146097
  let yoe := Int.fdiv (doe - Int.fdiv doe 1460 + Int.fdiv doe 36524 - Int.fdiv doe 146096) 365
  let y := yoe + era * 400
  let doy := doe - (365 * yoe + Int.fdiv yoe 4 - Int.fdiv yoe 100)
  let mp := Int.fdiv (5 * doy + 2) 153
  let d := doy - Int.fdiv (153 * mp + 2) 5 + 1
  let m := mp + (if mp < 10 then 3 else -9)
  (y + (if m ≤ 2 then 1 else 0), m, d)

/-- Civil (year, month, day) of instant `t` observed at fixed offset `offMs`. -/
def civilAt (offMs t : Int) : Int × Int × Int :=
  civilFromDays (Int.fdiv (t + offMs) dayMs)

/-- Minute-of-hour of instant `t` at fixed offset `offMs`. -/
def minuteAt (offMs t : Int) : Int := Int.fmod (Int.fdiv (t + offMs) minuteMs) 60

/-- Hour-of-day (0-23) of instant `t` at fixed offset `offMs`. -/
def hourAt (offMs t : Int) : Int := Int.fmod (Int.fdiv (t + offMs) hourMs) 24

/-- Second-of-minute of instant `t` at fixed offset `offMs`. -/
def secondAt (offMs t : Int) : Int := Int.fmod (Int.fdiv (t + offMs) 1000) 60

/-- Day-of-month of instant `t` at fixed offset `offMs`. -/
def dayAt (offMs t : Int) : Int := (civilAt offMs t).2.2

/-- Month (1-12) of instant `t` at fixed offset `offMs`. -/
def monthAt (offMs t : Int) : Int := (civilAt offMs t).2.1

/-! ## Slot generator (`scheduleGenerator.service.js`)

The generator consults the timezone only through
`Intl.DateTimeFormat(..., {timeZone, year, month}).formatToParts`, i.e.
through one function from instants to (year, month) pairs.  We abstract
that reading as a parameter `ym : Int → Int × Int`, so the theorems hold
for every timezone; `ymHCMC` below instantiates it for the configured
`Asia/Ho_Chi_Minh` (the source subtracts 1 from the Intl month to get a
0-based index, a bijective relabelling absorbed into `ym`). -/

/-- Year and (Intl) month of instant `t` at fixed offset `offMs`. -/
def yearMonthAt (offMs t : Int) : Int × Int :=
  ((civilAt offMs t).1, (civilAt offMs t).2.1)

/-- The `(year, 0-based month)` reading of an instant in the configured
timezone, exactly what `generateMonthlySchedule` computes with its
formatters (`parseInt(month) - 1`). -/
def ymHCMC (t : Int) : Int × Int :=
  ((civilAt hcmcOffsetMs t).1, (civilAt hcmcOffsetMs t).2.1 - 1)

/-- `isDateInMonth` from `scheduleGenerator.service.js`: the date's
(year, month) read in the timezone equals the target pair. -/
def isDateInMonth (ym : Int → Int × Int) (date : Int) (month year : Int) : Bool :=
  decide (ym date = (year, month))

/-- Pattern intervals in hours: `const pattern = [8, 8, 4]`. -/
def pattern : List Int := [8, 8, 4]

/-- `const MAX_CYCLES = 10000`. -/
def MAX_CYCLES : Nat := 10000

/-- The `while (cycles < MAX_CYCLES)` loop of `generateMonthlySchedule`,
with the remaining cycle budget as fuel.  Per iteration: break if the
current instant's (year, month) is lexicographically after the target;
if it equals the target push the main slot and, when `isDateInMonth`
accepts it, the clone slot at +1 hour; then advance by the next pattern
interval. -/
def genLoop (ym : Int → Int × Int) (ty tm : Int) : Int → Nat → Nat → List Int
  | _, _, 0 => []
  | cur, idx, Nat.succ n =>
    if ty < (ym cur).1 ∨ ((ym cur).1 = ty ∧ tm < (ym cur).2) then []
    else
      (if (ym cur).1 = ty ∧ (ym cur).2 = tm then
        cur :: (if isDateInMonth ym (cur + hourMs) tm ty then [cur + hourMs] else [])
      else [])
      ++ genLoop ym ty tm (cur + pattern.getD idx 0 * hourMs) ((idx + 1) % pattern.length) n

/-- The instants the loop visits strictly inside the target month, i.e.
the main slots (`schedule.push(new Date(currentDate.getTime()))`). -/
def genMains (ym : Int → Int × Int) (ty tm : Int) : Int → Nat → Nat → List Int
  | _, _, 0 => []
  | cur, idx, Nat.succ n =>
    if ty < (ym cur).1 ∨ ((ym cur).1 = ty ∧ tm < (ym cur).2) then []
    else
      (if (ym cur).1 = ty ∧ (ym cur).2 = tm then [cur] else [])
      ++ genMains ym ty tm (cur + pattern.getD idx 0 * hourMs) ((idx + 1) % pattern.length) n

/-- Boolean `≤` on instants: the ascending comparator
`schedule.sort((a, b) => a - b)`. -/
def intLe (a b : Int) : Bool := decide (a ≤ b)

/-- Insert into a `le`-sorted list, keeping it sorted. -/
def insertLe {α : Type} (le : α → α → Bool) (x : α) : List α → List α
  | [] => [x]
  | y :: ys => if le x y then x :: y :: ys else y :: insertLe le x ys

/-- Comparison sort (insertion sort).  Models `Array.prototype.sort` with
a numeric comparator: any comparison sort computes the same ascending
arrangement. -/
def sortBy {α : Type} (le : α → α → Bool) : List α → List α
  | [] => []
  | x :: xs => insertLe le x (sortBy le xs)

/-- `generateMonthlySchedule({startTime, timezone, targetDate})`: the
target (year, month) is read from `targetDate` in the timezone, the loop
runs from `startTime` with pattern index 0 and budget `MAX_CYCLES`, and
the result is sorted ascending. -/
def generateMonthlySchedule (ym : Int → Int × Int) (startTime targetDate : Int) : List Int :=
  sortBy intLe (genLoop ym (ym targetDate).1 (ym targetDate).2 startTime 0 MAX_CYCLES)

/-- Every pattern interval the loop can read is at least 4 hours. -/
lemma pattern_ge : ∀ idx : Nat, idx < 3 → (4 : Int) ≤ pattern.getD idx 0 := by decide

/-- The raw loop output is strictly increasing and bounded below by the
cursor: mains advance by at least 4 hours and clones sit 1 hour after
their main. -/
lemma genLoop_pairwise_lb (ym : Int → Int × Int) (ty tm : Int) :
    ∀ (n : Nat) (cur : Int) (idx : Nat), idx < 3 →
      List.Pairwise (· < ·) (genLoop ym ty tm cur idx n)
      ∧ ∀ x ∈ genLoop ym ty tm cur idx n, cur ≤ x := by
  intro n
  induction n with
  | zero => intro cur idx _; simp [genLoop]
  | succ n ih =>
    intro cur idx hidx
    have hidx3 : (idx + 1) % pattern.length < 3 := by
      simp only [pattern, List.length]; omega
    have hpat : (4 : Int) ≤ pattern.getD idx 0 := pattern_ge idx hidx
    have hMsPos : (0 : Int) < hourMs := by norm_num [hourMs]
    have hstep : cur + 4 * hourMs ≤ cur + pattern.getD idx 0 * hourMs := by
      have := mul_le_mul_of_nonneg_right hpat (le_of_lt hMsPos)
      linarith
    obtain ⟨ihp, ihlb⟩ := ih (cur + pattern.getD idx 0 * hourMs) ((idx + 1) % pattern.length) hidx3
    have hrest_cur : ∀ y ∈ genLoop ym ty tm (cur + pattern.getD idx 0 * hourMs)
        ((idx + 1) % pattern.length) n, cur < y := by
      intro y hy; have := ihlb y hy; linarith
    have hrest_clone : ∀ y ∈ genLoop ym ty tm (cur + pattern.getD idx 0 * hourMs)
        ((idx + 1) % pattern.length) n, cur + hourMs < y := by
      intro y hy; have := ihlb y hy; linarith
    rw [genLoop]
    by_cases hbrk : ty < (ym cur).1 ∨ ((ym cur).1 = ty ∧ tm < (ym cur).2)
    · simp [hbrk]
    · simp only [if_neg hbrk]
      by_cases hin : (ym cur).1 = ty ∧ (ym cur).2 = tm
      · simp only [if_pos hin]
        by_cases hcl : isDateInMonth ym (cur + hourMs) tm ty
        · simp only [if_pos hcl, List.cons_append, List.singleton_append]
          refine ⟨List.pairwise_cons.mpr ⟨?_, List.pairwise_cons.mpr ⟨hrest_clone, ihp⟩⟩, ?_⟩
          · intro y hy
            rcases List.mem_cons.mp hy with rfl | hy
            · linarith
            · exact hrest_cur y hy
          · intro x hx
            rcases List.mem_cons.mp hx with rfl | hx
            · exact le_refl x
            rcases List.mem_cons.mp hx with rfl | hx
            · linarith
            · exact le_of_lt (hrest_cur x hx)
        · simp only [if_neg hcl, List.cons_append, List.nil_append]
          refine ⟨List.pairwise_cons.mpr ⟨hrest_cur, ihp⟩, ?_⟩
          intro x hx
          rcases List.mem_cons.mp hx with rfl | hx
          · exact le_refl x
          · exact le_of_lt (hrest_cur x hx)
      · simp only [if_neg hin, List.nil_append]
        exact ⟨ihp, fun x hx => le_of_lt (hrest_cur x hx)⟩

/-- Every instant the raw loop emits reads as the target (year, month)
in the timezone: mains by the emission guard, clones by `isDateInMonth`. -/
lemma genLoop_in_month (ym : Int → Int × Int) (ty tm : Int) :
    ∀ (n : Nat) (cur : Int) (idx : Nat), ∀ x ∈ genLoop ym ty tm cur idx n, ym x = (ty, tm) := by
  intro n
  induction n with
  | zero => intro cur idx x hx; simp [genLoop] at hx
  | succ n ih =>
    intro cur idx x hx
    rw [genLoop] at hx
    by_cases hbrk : ty < (ym cur).1 ∨ ((ym cur).1 = ty ∧ tm < (ym cur).2)
    · simp [hbrk] at hx
    · simp only [if_neg hbrk, List.mem_append] at hx
      rcases hx with hx | hx
      · by_cases hin : (ym cur).1 = ty ∧ (ym cur).2 = tm
        · simp only [if_pos hin] at hx
          rcases List.mem_cons.mp hx with rfl | hx
          · exact Prod.ext hin.1 hin.2
          · by_cases hcl : isDateInMonth ym (cur + hourMs) tm ty
            · simp only [if_pos hcl, List.mem_singleton] at hx
              subst hx
              exact of_decide_eq_true hcl
            · simp [hcl] at hx
        · simp [hin] at hx
      · exact ih _ _ x hx

/-- A main slot's clone is in the raw loop output whenever its
(year, month) in the timezone is still the target. -/
lemma genMains_mem_clone (ym : Int → Int × Int) (ty tm : Int) :
    ∀ (n : Nat) (cur : Int) (idx : Nat), ∀ m ∈ genMains ym ty tm cur idx n,
      ym (m + hourMs) = (ty, tm) → (m + hourMs) ∈ genLoop ym ty tm cur idx n := by
  intro n
  induction n with
  | zero => intro cur idx m hm; simp [genMains] at hm
  | succ n ih =>
    intro cur idx m hm hym
    rw [genMains] at hm
    rw [genLoop]
    by_cases hbrk : ty < (ym cur).1 ∨ ((ym cur).1 = ty ∧ tm < (ym cur).2)
    · simp [hbrk] at hm
    · simp only [if_neg hbrk, List.mem_append] at hm ⊢
      rcases hm with hm | hm
      · by_cases hin : (ym cur).1 = ty ∧ (ym cur).2 = tm
        · simp only [if_pos hin, List.mem_singleton] at hm
          subst hm
          have hcl : isDateInMonth ym (m + hourMs) tm ty := decide_eq_true hym
          left
          simp [hin, hcl]
        · simp [hin] at hm
      · exact Or.inr (ih _ _ m hm hym)

/-- Inserting below the head of a sorted list puts the element in front. -/
lemma insertLe_eq_cons {α : Type} (le : α → α → Bool) (x y : α) (ys : List α)
    (h : le x y = true) : insertLe le x (y :: ys) = x :: y :: ys := by
  simp [insertLe, h]

/-- Sorting a list that is already sorted (adjacent comparisons hold)
returns it unchanged. -/
lemma sortBy_eq_self {α : Type} (le : α → α → Bool) :
    ∀ l : List α, List.Chain' (fun a b => le a b = true) l → sortBy le l = l
  | [] => fun _ => rfl
  | [x] => fun _ => by simp [sortBy, insertLe]
  | x :: y :: ys => fun h => by
      have h1 : le x y = true := (List.chain'_cons.mp h).1
      have h2 := (List.chain'_cons.mp h).2
      show insertLe le x (sortBy le (y :: ys)) = _
      rw [sortBy_eq_self le (y :: ys) h2, insertLe_eq_cons le x y ys h1]

/-- The mandated sort is the identity here: the loop already emits in
strictly ascending order. -/
lemma generateMonthlySchedule_eq (ym : Int → Int × Int) (startTime targetDate : Int) :
    generateMonthlySchedule ym startTime targetDate
      = genLoop ym (ym targetDate).1 (ym targetDate).2 startTime 0 MAX_CYCLES := by
  have hp := (genLoop_pairwise_lb ym (ym targetDate).1 (ym targetDate).2
    MAX_CYCLES startTime 0 (by norm_num)).1
  exact sortBy_eq_self intLe _
    ((hp.chain').imp (fun _ _ h => decide_eq_true (le_of_lt h)))

/-- A small concrete timezone reading used to instantiate the generator
theorems: month 2 until hour 100 of the epoch, month 3 afterwards. -/
def ymTest (t : Int) : Int × Int := (2026, if t < 360000000 then 2 else 3)

/-- C1: for every anchor instant, target instant (which fixes the target
month/year) and timezone reading, the sequence returned by
`generateMonthlySchedule` is strictly ascending, has no duplicate
instants, and every returned instant's (year, month) in the timezone
equals the target pair read from the target instant. -/
theorem generateMonthlySchedule_sorted_in_month (ym : Int → Int × Int)
    (startTime targetDate : Int) :
    List.Pairwise (· < ·) (generateMonthlySchedule ym startTime targetDate)
    ∧ (generateMonthlySchedule ym startTime targetDate).Nodup
    ∧ ∀ x ∈ generateMonthlySchedule ym startTime targetDate, ym x = ym targetDate := by
  have hp := (genLoop_pairwise_lb ym (ym targetDate).1 (ym targetDate).2
    MAX_CYCLES startTime 0 (by norm_num)).1
  have heq := generateMonthlySchedule_eq ym startTime targetDate
  rw [heq]
  refine ⟨hp, hp.imp (fun h => ne_of_lt h), ?_⟩
  intro x hx
  exact genLoop_in_month ym (ym targetDate).1 (ym targetDate).2 MAX_CYCLES startTime 0 x hx

/-- C1 witness: a concrete slot of a concrete run is in the target month. -/
theorem generateMonthlySchedule_sorted_in_month_witness :
    (3600000 : Int) ∈ generateMonthlySchedule ymTest 0 0
    ∧ ymTest 3600000 = ymTest 0 :=
  ⟨by decide, (generateMonthlySchedule_sorted_in_month ymTest 0 0).2.2 3600000 (by decide)⟩

/-- C6: every slot the generator emits reads as the target month (so no
clone ever lies outside it), and for every main slot the clone at
main + 1 hour is in the output iff the clone's (year, month) in the
timezone still equals the target. -/
theorem generateMonthlySchedule_clone_iff (ym : Int → Int × Int)
    (startTime targetDate : Int) :
    (∀ x ∈ generateMonthlySchedule ym startTime targetDate, ym x = ym targetDate)
    ∧ ∀ m ∈ genMains ym (ym targetDate).1 (ym targetDate).2 startTime 0 MAX_CYCLES,
        ((m + hourMs) ∈ generateMonthlySchedule ym startTime targetDate
          ↔ ym (m + hourMs) = ym targetDate) := by
  have heq := generateMonthlySchedule_eq ym startTime targetDate
  rw [heq]
  refine ⟨?_, ?_⟩
  · intro x hx
    exact genLoop_in_month ym (ym targetDate).1 (ym targetDate).2 MAX_CYCLES startTime 0 x hx
  · intro m hm
    constructor
    · intro hmem
      exact genLoop_in_month ym (ym targetDate).1 (ym targetDate).2 MAX_CYCLES startTime 0 _ hmem
    · intro hc
      exact genMains_mem_clone ym (ym targetDate).1 (ym targetDate).2 MAX_CYCLES startTime 0 m hm hc

/-- C6 witness: the clone of the concrete main slot at hour 8 is emitted. -/
theorem generateMonthlySchedule_clone_iff_witness :
    (28800000 + hourMs : Int) ∈ generateMonthlySchedule ymTest 0 0 :=
  ((generateMonthlySchedule_clone_iff ymTest 0 0).2 28800000 (by decide)).mpr (by decide)

/-! ## Trigger registrar (`monthlyCronRegistrar.service.js`)

A `node-cron` task is modelled by the data the source hands to
`cron.schedule`: the four numeric fields of the expression
`"minute hour day month *"`, the timezone option (the source passes no
options object, hence `none`), plus a stopped flag and a creation id
standing for JS object identity.  A live task fires at the instants whose
wall-clock components in its evaluation zone — the task's timezone option
if present, otherwise the host's local zone — match the expression, at
second 0 (standard `node-cron` semantics for a five-field expression). -/

/-- The four numeric fields of a cron expression `"minute hour day month *"`. -/
structure CronExpr where
  minute : Int
  hour : Int
  day : Int
  month : Int
deriving DecidableEq

/-- Whether a cron expression matches instant `t` when evaluated at fixed
offset `offMs` (day-of-week field is the wildcard). -/
def cronMatches (e : CronExpr) (offMs t : Int) : Bool :=
  decide (secondAt offMs t = 0) && decide (minuteAt offMs t = e.minute)
    && decide (hourAt offMs t = e.hour) && decide (dayAt offMs t = e.day)
    && decide (monthAt offMs t = e.month)

/-- `getCronExpressionFromDate`: the minute/hour/day/month of the date
extracted with `Intl.DateTimeFormat` in `config.scheduler.timezone`
(`Asia/Ho_Chi_Minh`). -/
def getCronExpressionFromDate (date : Int) : CronExpr :=
  { minute := minuteAt hcmcOffsetMs date
    hour := hourAt hcmcOffsetMs date
    day := dayAt hcmcOffsetMs date
    month := monthAt hcmcOffsetMs date }

/-- A task of the monthly registrar: creation id, intended fire instant
(`alertTime`), cron expression, the timezone option passed to
`cron.schedule` (the source passes none), stopped flag. -/
structure MonTask where
  id : Nat
  alertAt : Int
  expr : CronExpr
  tzOption : Option Int
  stopped : Bool
deriving DecidableEq

/-- Registrar state: the `activeCronTasks` array, the stopped tasks that
were discarded from it (kept for reasoning about them), and the next
creation id. -/
structure MonState where
  active : List MonTask
  graveyard : List MonTask
  nextId : Nat
deriving DecidableEq

/-- The initial module state: `let activeCronTasks = []`. -/
def monInit : MonState := { active := [], graveyard := [], nextId := 0 }

/-- `task.stop()` on a task value. -/
def stopTask (t : MonTask) : MonTask := { t with stopped := true }

/-- `clearScheduledJobs`: if any tasks are active, stop each one and
reset the array. -/
def clearScheduledJobs (st : MonState) : MonState :=
  if st.active.isEmpty then st
  else { active := []
         graveyard := st.graveyard ++ st.active.map stopTask
         nextId := st.nextId }

/-- One iteration of `scheduleDates.forEach`: compute
`alertTime = date − 3 minutes`; only when it is strictly in the future
create a cron task (no timezone option is passed) and push it. -/
def registerStep (now : Int) (st : MonState) (date : Int) : MonState :=
  if now < date - 3 * minuteMs then
    { active := st.active ++
        [{ id := st.nextId
           alertAt := date - 3 * minuteMs
           expr := getCronExpressionFromDate (date - 3 * minuteMs)
           tzOption := none
           stopped := false }]
      graveyard := st.graveyard
      nextId := st.nextId + 1 }
  else st

/-- `registerMonthlySchedule(scheduleDates)`: clear existing jobs, return
early on an empty list, otherwise install one task per still-future slot.
`now` stands for the `new Date()` calls during the run. -/
def registerMonthlySchedule (now : Int) (scheduleDates : List Int) (st : MonState) : MonState :=
  let cleared := clearScheduledJobs st
  if scheduleDates.isEmpty then cleared
  else scheduleDates.foldl (registerStep now) cleared

/-- The unstopped active tasks whose expression matches instant `t` in
their evaluation zone; these are the callbacks that run at `t`. -/
def invocationsAt (st : MonState) (hostOff t : Int) : List MonTask :=
  st.active.filter (fun tk => !tk.stopped && cronMatches tk.expr (tk.tzOption.getD hostOff) t)

/-- After clearing, the active array is empty. -/
lemma clearScheduledJobs_active (st : MonState) : (clearScheduledJobs st).active = [] := by
  unfold clearScheduledJobs
  by_cases h : st.active.isEmpty
  · simp only [if_pos h]
    exact List.isEmpty_iff.mp h
  · simp [h]

/-- Clearing does not consume creation ids. -/
lemma clearScheduledJobs_nextId (st : MonState) : (clearScheduledJobs st).nextId = st.nextId := by
  unfold clearScheduledJobs
  split <;> rfl

/-- One registration step keeps the graveyard, never lowers the id
counter, and any task it leaves active is either an old one or a fresh
one whose id lies in the consumed range. -/
lemma registerStep_fresh (now : Int) (st : MonState) (d : Int) :
    (registerStep now st d).graveyard = st.graveyard
    ∧ st.nextId ≤ (registerStep now st d).nextId
    ∧ ∀ tk ∈ (registerStep now st d).active,
        tk ∈ st.active ∨ (st.nextId ≤ tk.id ∧ tk.id < (registerStep now st d).nextId) := by
  unfold registerStep
  by_cases h : now < d - 3 * minuteMs
  · simp only [if_pos h]
    refine ⟨by simp, by simp, ?_⟩
    intro tk htk
    rcases List.mem_append.mp htk with htk | htk
    · exact Or.inl htk
    · rw [List.mem_singleton] at htk
      subst htk
      exact Or.inr ⟨le_refl _, Nat.lt_succ_self _⟩
  · simp only [if_neg h]
    exact ⟨trivial, le_refl _, fun tk h2 => Or.inl h2⟩

/-- The registration fold enjoys the same invariants as one step. -/
lemma registerFold_fresh (now : Int) :
    ∀ (dates : List Int) (st : MonState),
      (dates.foldl (registerStep now) st).graveyard = st.graveyard
      ∧ st.nextId ≤ (dates.foldl (registerStep now) st).nextId
      ∧ ∀ tk ∈ (dates.foldl (registerStep now) st).active,
          tk ∈ st.active ∨ (st.nextId ≤ tk.id ∧ tk.id < (dates.foldl (registerStep now) st).nextId) := by
  intro dates
  induction dates with
  | nil => intro st; exact ⟨rfl, le_refl _, fun tk h => Or.inl h⟩
  | cons d rest ih =>
    intro st
    rw [List.foldl_cons]
    obtain ⟨sg, sn, sa⟩ := registerStep_fresh now st d
    obtain ⟨ig, hn2, ia⟩ := ih (registerStep now st d)
    refine ⟨by rw [ig, sg], le_trans sn hn2, ?_⟩
    intro tk htk
    rcases ia tk htk with hmem | ⟨h1, h2⟩
    · rcases sa tk hmem with hmem2 | ⟨g1, g2⟩
      · exact Or.inl hmem2
      · exact Or.inr ⟨g1, lt_of_lt_of_le g2 hn2⟩
    · exact Or.inr ⟨le_trans sn h1, h2⟩

/-- Tasks active after a replace are exactly the freshly created ones:
their ids lie in the id range this call consumed. -/
lemma register_active_fresh (now : Int) (slots : List Int) (st : MonState) :
    ∀ tk ∈ (registerMonthlySchedule now slots st).active,
      st.nextId ≤ tk.id ∧ tk.id < (registerMonthlySchedule now slots st).nextId := by
  unfold registerMonthlySchedule
  by_cases h : slots.isEmpty
  · simp only [if_pos h]
    intro tk htk
    rw [clearScheduledJobs_active] at htk
    exact absurd htk (List.not_mem_nil tk)
  · simp only [if_neg h]
    intro tk htk
    obtain ⟨_, _, ha⟩ := registerFold_fresh now slots (clearScheduledJobs st)
    rcases ha tk htk with hmem | ⟨h1, h2⟩
    · rw [clearScheduledJobs_active] at hmem
      exact absurd hmem (List.not_mem_nil tk)
    · rw [clearScheduledJobs_nextId] at h1
      exact ⟨h1, h2⟩

/-- A replace leaves exactly the graveyard produced by its clearing phase. -/
lemma register_graveyard (now : Int) (slots : List Int) (st : MonState) :
    (registerMonthlySchedule now slots st).graveyard = (clearScheduledJobs st).graveyard := by
  unfold registerMonthlySchedule
  by_cases h : slots.isEmpty
  · simp [h]
  · simp only [if_neg h]
    exact (registerFold_fresh now slots (clearScheduledJobs st)).1

/-- The fire instants of the tasks a replace installs are exactly the
still-future slots shifted back by the 3-minute lead. -/
lemma registerFold_map (now : Int) :
    ∀ (dates : List Int) (st : MonState),
      (dates.foldl (registerStep now) st).active.map (fun tk => tk.alertAt)
        = st.active.map (fun tk => tk.alertAt)
          ++ (dates.filter (fun d => decide (now < d - 3 * minuteMs))).map
              (fun d => d - 3 * minuteMs) := by
  intro dates
  induction dates with
  | nil => intro st; simp
  | cons d rest ih =>
    intro st
    rw [List.foldl_cons, ih]
    by_cases h : now < d - 3 * minuteMs
    · simp [registerStep, h, List.filter_cons]
    · simp [registerStep, h, List.filter_cons]

/-- C5: a replace installs one trigger exactly for each slot whose fire
time (slot minus the 3-minute lead) is strictly after the call time —
the installed fire times are the filtered slots in order, so every other
slot is skipped with no error and the reported count is the number of
qualifying slots; in particular replace on a future and a past slot
installs exactly one trigger. -/
theorem registerMonthlySchedule_installs (now : Int) (slots : List Int) (st : MonState) :
    ((registerMonthlySchedule now slots st).active.map (fun tk => tk.alertAt)
        = (slots.filter (fun d => decide (now < d - 3 * minuteMs))).map
            (fun d => d - 3 * minuteMs))
    ∧ (registerMonthlySchedule now slots st).active.length
        = (slots.filter (fun d => decide (now < d - 3 * minuteMs))).length
    ∧ (registerMonthlySchedule 0 [36000000, -36000000] monInit).active.length = 1 := by
  have hmap : (registerMonthlySchedule now slots st).active.map (fun tk => tk.alertAt)
      = (slots.filter (fun d => decide (now < d - 3 * minuteMs))).map
          (fun d => d - 3 * minuteMs) := by
    unfold registerMonthlySchedule
    by_cases h : slots.isEmpty
    · have hnil : slots = [] := List.isEmpty_iff.mp h
      subst hnil
      simp [clearScheduledJobs_active]
    · simp only [if_neg h]
      rw [registerFold_map, clearScheduledJobs_active]
      simp
  refine ⟨hmap, ?_, by decide⟩
  have := congrArg List.length hmap
  simpa using this

/-- C7: after a second replace, every trigger the first call installed
has been stopped and discarded to the graveyard, and no first-call
trigger is ever among the callbacks invoked at any instant — in
particular a fire time belonging only to the first slot set invokes
nothing from the first set. -/
theorem registerMonthlySchedule_replace_twice (now1 now2 hostOff t : Int)
    (slots1 slots2 : List Int) :
    (∀ tk ∈ (registerMonthlySchedule now1 slots1 monInit).active,
        stopTask tk ∈ (registerMonthlySchedule now2 slots2
          (registerMonthlySchedule now1 slots1 monInit)).graveyard)
    ∧ ∀ tk ∈ invocationsAt (registerMonthlySchedule now2 slots2
          (registerMonthlySchedule now1 slots1 monInit)) hostOff t,
        tk ∉ (registerMonthlySchedule now1 slots1 monInit).active := by
  constructor
  · intro tk htk
    rw [register_graveyard]
    unfold clearScheduledJobs
    have hne : (registerMonthlySchedule now1 slots1 monInit).active.isEmpty = false := by
      cases hact : (registerMonthlySchedule now1 slots1 monInit).active with
      | nil => rw [hact] at htk; exact absurd htk (List.not_mem_nil tk)
      | cons a as => rfl
    simp only [hne, Bool.false_eq_true, if_false]
    exact List.mem_append_right _ (List.mem_map_of_mem stopTask htk)
  · intro tk htk htk1
    have htk2 : tk ∈ (registerMonthlySchedule now2 slots2
        (registerMonthlySchedule now1 slots1 monInit)).active :=
      (List.mem_filter.mp htk).1
    have hfresh2 := register_active_fresh now2 slots2
      (registerMonthlySchedule now1 slots1 monInit) tk htk2
    have hfresh1 := register_active_fresh now1 slots1 monInit tk htk1
    omega

/-- C7 witness: the concrete first-call trigger is in the graveyard,
stopped, after a second replace with a different slot. -/
theorem registerMonthlySchedule_replace_twice_witness :
    stopTask { id := 0, alertAt := 35820000, expr := getCronExpressionFromDate 35820000,
               tzOption := none, stopped := false }
      ∈ (registerMonthlySchedule 0 [72000000]
          (registerMonthlySchedule 0 [36000000] monInit)).graveyard :=
  (registerMonthlySchedule_replace_twice 0 0 0 0 [36000000] [72000000]).1
    { id := 0, alertAt := 35820000, expr := getCronExpressionFromDate 35820000,
      tzOption := none, stopped := false } (by decide)

/-- C2: the registrar extracts the cron fields from the fire time in the
configured target timezone, but calls the scheduling primitive without
any timezone option, so the expression is evaluated in the host's local
zone: on a UTC host the concrete trigger does not fire at its intended
instant (2026-02-10T09:57Z, i.e. 16:57 Indochina time) and instead fires
seven hours later, the wrong wall-clock time. -/
theorem registerMonthlySchedule_host_zone_bug :
    (registerMonthlySchedule 0 [1770717600000] monInit).active
      = [{ id := 0, alertAt := 1770717420000,
           expr := { minute := 57, hour := 16, day := 10, month := 2 },
           tzOption := none, stopped := false }]
    ∧ getCronExpressionFromDate 1770717420000
        = { minute := 57, hour := 16, day := 10, month := 2 }
    ∧ cronMatches { minute := 57, hour := 16, day := 10, month := 2 } 0 1770717420000 = false
    ∧ cronMatches { minute := 57, hour := 16, day := 10, month := 2 } 0
        (1770717420000 + 25200000) = true := by
  refine ⟨?_, by decide, by decide, by decide⟩
  decide

/-! ## Event pipeline (`weeklyFetch.cron.js`, `dailyAlert.cron.js`,
`filterNews.service.js`, `timezone.service.js`)

Events carry their absolute instant (`new Date(event.date)` as epoch
milliseconds).  The `scheduledAlerts` array of `dailyAlert.cron.js` is a
second, independent registry modelled like the monthly one; its tasks
record which call created them (`daily` with the day's event list, or
`preEvent` with the single event) and the timezone option
`'Asia/Ho_Chi_Minh'` that `cron.schedule` receives there. -/

/-- A calendar event as consumed by the pipeline. -/
structure Event where
  title : String
  country : String
  impact : String
  date : Int
deriving DecidableEq

/-- `filterHighImpactUSD`: keep events with `impact === 'High'` and
`country === 'USD'`, order preserved. -/
def filterHighImpactUSD (events : List Event) : List Event :=
  events.filter (fun e => decide (e.impact = "High") && decide (e.country = "USD"))

/-- Which scheduling call created an alert task, with its payload. -/
inductive AlertKind where
  | daily (events : List Event)
  | preEvent (e : Event)
deriving DecidableEq

/-- A task in the `scheduledAlerts` registry. -/
structure AlertTask where
  id : Nat
  expr : CronExpr
  tz : Option Int
  stopped : Bool
  kind : AlertKind
deriving DecidableEq

/-- State of the `scheduledAlerts` registry (active array, stopped
discards, next creation id). -/
structure AlertState where
  active : List AlertTask
  graveyard : List AlertTask
  nextId : Nat
deriving DecidableEq

/-- The initial module state: `const scheduledAlerts = []`. -/
def alertInit : AlertState := { active := [], graveyard := [], nextId := 0 }

/-- `task.stop()` on an alert task value. -/
def stopAlertTask (t : AlertTask) : AlertTask := { t with stopped := true }

/-- `cancelAllAlerts`: stop every scheduled task and clear the array
(`scheduledAlerts.length = 0`). -/
def cancelAllAlerts (st : AlertState) : AlertState :=
  { active := []
    graveyard := st.graveyard ++ st.active.map stopAlertTask
    nextId := st.nextId }

/-- `getCronComponents` from `timezone.service.js`: the minute, hour,
day and month of an instant read in `TARGET_TIMEZONE` (UTC+7). -/
def getCronComponents (t : Int) : CronExpr :=
  { minute := minuteAt hcmcOffsetMs t
    hour := hourAt hcmcOffsetMs t
    day := dayAt hcmcOffsetMs t
    month := monthAt hcmcOffsetMs t }

/-- `getEventAlertTime`: cron components of the event instant minus five
minutes. -/
def getEventAlertTime (date : Int) : CronExpr :=
  getCronComponents (date - 5 * minuteMs)

/-- The local calendar day (year, month, day) that `getDateKey` renders
as its `YYYY-MM-DD` key: the instant observed in `TARGET_TIMEZONE`. -/
def getDateKeyTriple (t : Int) : Int × Int × Int := civilAt hcmcOffsetMs t

/-- `scheduleDailyAlert(dateKey, events)`: install the 07:00 task
(`"0 0 7 day month *"`, timezone `Asia/Ho_Chi_Minh`) for the parsed
day/month of the date key, carrying the day's events.  The key string is
represented by its parsed (year, month, day) numbers. -/
def scheduleDailyAlert (ymd : Int × Int × Int) (events : List Event) (st : AlertState) :
    AlertState :=
  { active := st.active ++
      [{ id := st.nextId
         expr := { minute := 0, hour := 7, day := ymd.2.2, month := ymd.2.1 }
         tz := some hcmcOffsetMs
         stopped := false
         kind := AlertKind.daily events }]
    graveyard := st.graveyard
    nextId := st.nextId + 1 }

/-- `schedulePreEventAlert(event)`: install the task at the event's
alert components (`"0 minute hour day month *"`, timezone
`Asia/Ho_Chi_Minh`), unconditionally. -/
def schedulePreEventAlert (e : Event) (st : AlertState) : AlertState :=
  { active := st.active ++
      [{ id := st.nextId
         expr := getEventAlertTime e.date
         tz := some hcmcOffsetMs
         stopped := false
         kind := AlertKind.preEvent e }]
    graveyard := st.graveyard
    nextId := st.nextId + 1 }

/-- Append an event to its bucket, creating the bucket at the end on
first sight, as assignment into `eventsByDate` does (string keys of a JS
object keep insertion order). -/
def insertGrouped (k : Int × Int × Int) (e : Event) :
    List ((Int × Int × Int) × List Event) → List ((Int × Int × Int) × List Event)
  | [] => [(k, [e])]
  | (k2, es) :: rest =>
      if k2 = k then (k2, es ++ [e]) :: rest else (k2, es) :: insertGrouped k e rest

/-- The `eventsByDate` grouping loop: bucket every event under the date
key of its instant in the target timezone. -/
def groupByDateKey (events : List Event) : List ((Int × Int × Int) × List Event) :=
  events.foldl (fun g e => insertGrouped (getDateKeyTriple e.date) e g) []

/-- Lexicographic order on date triples: for the zero-padded `YYYY-MM-DD`
keys this is exactly the string order used by `Object.keys(...).sort()`. -/
def tripleLe (a b : Int × Int × Int) : Bool :=
  decide (a.1 < b.1) || (decide (a.1 = b.1) &&
    (decide (a.2.1 < b.2.1) || (decide (a.2.1 = b.2.1) && decide (a.2.2 ≤ b.2.2))))

/-- `eventsByDate[dateKey]`. -/
def lookupGroup (g : List ((Int × Int × Int) × List Event)) (k : Int × Int × Int) :
    List Event :=
  match g.find? (fun p => decide (p.1 = k)) with
  | some p => p.2
  | none => []

/-- Body of the `dates.forEach` loop: one daily-summary task for the
date, then one pre-event task per event of that date. -/
def scheduleForDate (g : List ((Int × Int × Int) × List Event)) (st : AlertState)
    (k : Int × Int × Int) : AlertState :=
  (lookupGroup g k).foldl (fun s e => schedulePreEventAlert e s)
    (scheduleDailyAlert k (lookupGroup g k) st)

/-- `fetchAndScheduleAlerts`: the whole run as a function of the fetch
outcome.  A fetch error is caught by the surrounding `try` and changes
nothing; an empty filtered set returns before touching the registry;
otherwise old alerts are cancelled and the new daily and pre-event tasks
installed per sorted date key. -/
def fetchAndScheduleAlerts (fetchResult : Except String (List Event)) (st : AlertState) :
    AlertState :=
  match fetchResult with
  | Except.error _ => st
  | Except.ok events =>
    let highImpactUSD := filterHighImpactUSD events
    if highImpactUSD.isEmpty then st
    else
      let eventsByDate := groupByDateKey highImpactUSD
      let dates := sortBy tripleLe (eventsByDate.map Prod.fst)
      dates.foldl (scheduleForDate eventsByDate) (cancelAllAlerts st)

/-- A state transition that only appends freshly-created tasks: it keeps
the graveyard, never lowers the id counter, and every task it leaves
active is an old one or has a fresh id. -/
def FreshStep (g : AlertState → AlertState) : Prop :=
  ∀ s : AlertState, (g s).graveyard = s.graveyard ∧ s.nextId ≤ (g s).nextId
    ∧ ∀ tk ∈ (g s).active, tk ∈ s.active ∨ s.nextId ≤ tk.id

/-- Composition of fresh-append transitions is a fresh-append transition. -/
lemma freshStep_comp {g1 g2 : AlertState → AlertState}
    (h1 : FreshStep g1) (h2 : FreshStep g2) : FreshStep (fun s => g2 (g1 s)) := by
  intro s
  obtain ⟨a1, b1, c1⟩ := h1 s
  obtain ⟨a2, b2, c2⟩ := h2 (g1 s)
  refine ⟨by rw [a2, a1], le_trans b1 b2, ?_⟩
  intro tk htk
  rcases c2 tk htk with hmem | hid
  · rcases c1 tk hmem with hmem2 | hid2
    · exact Or.inl hmem2
    · exact Or.inr hid2
  · exact Or.inr (le_trans b1 hid)

/-- `scheduleDailyAlert` appends one fresh task. -/
lemma freshStep_daily (k : Int × Int × Int) (evs : List Event) :
    FreshStep (scheduleDailyAlert k evs) := by
  intro s
  refine ⟨rfl, Nat.le_succ _, ?_⟩
  intro tk htk
  rcases List.mem_append.mp htk with htk | htk
  · exact Or.inl htk
  · rw [List.mem_singleton] at htk
    subst htk
    exact Or.inr (le_refl _)

/-- `schedulePreEventAlert` appends one fresh task. -/
lemma freshStep_pre (e : Event) : FreshStep (fun s => schedulePreEventAlert e s) := by
  intro s
  refine ⟨rfl, Nat.le_succ _, ?_⟩
  intro tk htk
  rcases List.mem_append.mp htk with htk | htk
  · exact Or.inl htk
  · rw [List.mem_singleton] at htk
    subst htk
    exact Or.inr (le_refl _)

/-- Folding fresh-append steps over a list is a fresh-append transition. -/
lemma freshStep_foldl {α : Type} (f : AlertState → α → AlertState)
    (hf : ∀ a, FreshStep (fun s => f s a)) :
    ∀ l : List α, FreshStep (fun s => l.foldl f s) := by
  intro l
  induction l with
  | nil => exact fun s => ⟨rfl, le_refl _, fun tk h => Or.inl h⟩
  | cons a rest ih =>
    have := freshStep_comp (hf a) ih
    intro s
    exact this s

/-- One date's scheduling (daily summary plus pre-event alerts) is a
fresh-append transition. -/
lemma freshStep_scheduleForDate (g : List ((Int × Int × Int) × List Event))
    (k : Int × Int × Int) : FreshStep (fun s => scheduleForDate g s k) := by
  have hd : FreshStep (scheduleDailyAlert k (lookupGroup g k)) :=
    freshStep_daily k (lookupGroup g k)
  have hp := freshStep_foldl (fun s e => schedulePreEventAlert e s) freshStep_pre
    (lookupGroup g k)
  intro s
  exact freshStep_comp hd hp s

/-- The run body on a successful fetch, written out. -/
lemma fetchAndScheduleAlerts_ok (events : List Event) (st : AlertState) :
    fetchAndScheduleAlerts (Except.ok events) st
      = if (filterHighImpactUSD events).isEmpty then st
        else (sortBy tripleLe ((groupByDateKey (filterHighImpactUSD events)).map Prod.fst)).foldl
            (scheduleForDate (groupByDateKey (filterHighImpactUSD events)))
            (cancelAllAlerts st) := rfl

/-- C4: a fetch failure leaves the alert registry untouched: the state —
hence its membership and count, and the liveness of every previously
installed trigger — is exactly what it was before the run. -/
theorem fetchAndScheduleAlerts_error_no_change (e : String) (st : AlertState) :
    fetchAndScheduleAlerts (Except.error e) st = st
    ∧ (fetchAndScheduleAlerts (Except.error e) st).active.length = st.active.length :=
  ⟨rfl, rfl⟩

/-- C3 amended: after a successful fetch, the registering phase performs
the full replace (stopping and discarding every prior daily and
pre-event trigger) only when the filtered qualifying set is non-empty;
when the qualifying set is empty the run returns early and the previous
triggers remain installed and live. -/
theorem fetchAndScheduleAlerts_replace_iff_nonempty (events : List Event) (st : AlertState)
    (hinv : ∀ tk ∈ st.active, tk.id < st.nextId) :
    (filterHighImpactUSD events ≠ [] →
        (∀ tk ∈ st.active,
            stopAlertTask tk ∈ (fetchAndScheduleAlerts (Except.ok events) st).graveyard)
        ∧ ∀ tk ∈ (fetchAndScheduleAlerts (Except.ok events) st).active, tk ∉ st.active)
    ∧ (filterHighImpactUSD events = [] → fetchAndScheduleAlerts (Except.ok events) st = st) := by
  rw [fetchAndScheduleAlerts_ok]
  by_cases hF : (filterHighImpactUSD events).isEmpty
  · rw [if_pos hF]
    exact ⟨fun hne => absurd (List.isEmpty_iff.mp hF) hne, fun _ => rfl⟩
  · rw [if_neg hF]
    have hfold := freshStep_foldl (scheduleForDate (groupByDateKey (filterHighImpactUSD events)))
      (freshStep_scheduleForDate (groupByDateKey (filterHighImpactUSD events)))
      (sortBy tripleLe ((groupByDateKey (filterHighImpactUSD events)).map Prod.fst))
      (cancelAllAlerts st)
    obtain ⟨hg, _, ha⟩ := hfold
    refine ⟨fun _ => ⟨?_, ?_⟩, fun hnil => absurd (List.isEmpty_iff.mpr hnil) hF⟩
    · intro tk htk
      rw [hg]
      exact List.mem_append_right _ (List.mem_map_of_mem stopAlertTask htk)
    · intro tk htk htkold
      rcases ha tk htk with hmem | hid
      · exact absurd hmem (List.not_mem_nil tk)
      · have hcn : (cancelAllAlerts st).nextId = st.nextId := rfl
        rw [hcn] at hid
        exact absurd hid (by have := hinv tk htkold; omega)

/-- A concrete previously-installed daily trigger. -/
def tkDemo : AlertTask :=
  { id := 0, expr := { minute := 0, hour := 7, day := 1, month := 1 },
    tz := some hcmcOffsetMs, stopped := false, kind := AlertKind.daily [] }

/-- A registry state holding `tkDemo` live. -/
def stDemo : AlertState := { active := [tkDemo], graveyard := [], nextId := 1 }

/-- A fetched event that does not qualify (Medium impact, EUR). -/
def evMedium : Event :=
  { title := "CPI", country := "EUR", impact := "Medium", date := 1770784200000 }

/-- A fetched event that qualifies (High impact, USD); its instant is
2026-02-10T23:30:00-05:00, i.e. 2026-02-11T04:30Z. -/
def evHigh : Event :=
  { title := "NFP", country := "USD", impact := "High", date := 1770784200000 }

/-- C3 counterexample: a successful run whose qualifying set is empty
returns early — the previously installed trigger is neither stopped nor
removed, so the registering phase did not perform the full replace the
claim requires. -/
theorem fetch_empty_filter_keeps_old_triggers :
    fetchAndScheduleAlerts (Except.ok [evMedium]) stDemo = stDemo
    ∧ (fetchAndScheduleAlerts (Except.ok [evMedium]) stDemo).active = [tkDemo]
    ∧ tkDemo.stopped = false
    ∧ (fetchAndScheduleAlerts (Except.ok [evMedium]) stDemo).graveyard = [] := by decide

/-- C3 witness: with a non-empty qualifying set the same prior trigger
is stopped and discarded. -/
theorem fetchAndScheduleAlerts_replace_iff_nonempty_witness :
    stopAlertTask tkDemo ∈ (fetchAndScheduleAlerts (Except.ok [evHigh]) stDemo).graveyard :=
  ((fetchAndScheduleAlerts_replace_iff_nonempty [evHigh] stDemo (by decide)).1
    (by decide)).1 tkDemo (by decide)

/-- Whether an alert task's callback runs at instant `t`: the task is
unstopped and its expression matches in its evaluation zone (its
timezone option, else the host zone `hostOff`). -/
def firesAt (tk : AlertTask) (hostOff t : Int) : Bool :=
  !tk.stopped && cronMatches tk.expr (tk.tz.getD hostOff) t

/-- The daily task for date key 2026-02-11 as `scheduleDailyAlert`
builds it. -/
def tkFeb11 : AlertTask :=
  { id := 0, expr := { minute := 0, hour := 7, day := 11, month := 2 },
    tz := some hcmcOffsetMs, stopped := false, kind := AlertKind.daily [] }

/-- C9: the cron expression carries no year and nothing stops a task
after it fires, so an installed handle fires again: the daily trigger
for 2026-02-11 also fires at 07:00 Indochina time on 2027-02-11 — it
does not fire at most once. -/
theorem scheduleDailyAlert_fires_every_year :
    (scheduleDailyAlert (2026, 2, 11) [] alertInit).active = [tkFeb11]
    ∧ firesAt tkFeb11 0 1770768000000 = true
    ∧ firesAt tkFeb11 0 1802304000000 = true
    ∧ (1770768000000 : Int) ≠ 1802304000000 := by decide

/-- C10: `schedulePreEventAlert` unconditionally appends one trigger at
the event's alert components (event instant minus five minutes) — there
is no check that the fire time is in the future, unlike the monthly
registrar, which at the same call time skips a past slot entirely. -/
theorem schedulePreEventAlert_unconditional (e : Event) (st : AlertState) :
    schedulePreEventAlert e st
      = { active := st.active ++
            [{ id := st.nextId, expr := getEventAlertTime e.date, tz := some hcmcOffsetMs,
               stopped := false, kind := AlertKind.preEvent e }],
          graveyard := st.graveyard, nextId := st.nextId + 1 }
    ∧ (schedulePreEventAlert { title := "Old", country := "USD", impact := "High", date := 0 }
        alertInit).active.length = 1
    ∧ (registerMonthlySchedule 36000000 [0] monInit).active = [] :=
  ⟨rfl, rfl, by decide⟩

/-! ## Date keys (`getDateKey` in `timezone.service.js`)

`getDateKey` renders the instant's local calendar day in
`TARGET_TIMEZONE` with the `en-CA` locale, which formats as
`YYYY-MM-DD`: a numeric year (four digits for years 1000–9999) and
zero-padded two-digit month and day.  The string is built digit by
digit, matching that format on the in-range dates `keyRange` describes. -/

/-- `getDateKey(dateStr)`: the `YYYY-MM-DD` rendering of the instant's
(year, month, day) in the target timezone. -/
def getDateKey (t : Int) : String :=
  String.mk [Nat.digitChar ((getDateKeyTriple t).1.toNat / 1000 % 10),
             Nat.digitChar ((getDateKeyTriple t).1.toNat / 100 % 10),
             Nat.digitChar ((getDateKeyTriple t).1.toNat / 10 % 10),
             Nat.digitChar ((getDateKeyTriple t).1.toNat % 10), '-',
             Nat.digitChar ((getDateKeyTriple t).2.1.toNat / 10 % 10),
             Nat.digitChar ((getDateKeyTriple t).2.1.toNat % 10), '-',
             Nat.digitChar ((getDateKeyTriple t).2.2.toNat / 10 % 10),
             Nat.digitChar ((getDateKeyTriple t).2.2.toNat % 10)]

/-- The calendar range on which the `YYYY-MM-DD` rendering is faithful:
four-digit year, valid month and day. -/
def keyRange (c : Int × Int × Int) : Prop :=
  1000 ≤ c.1 ∧ c.1 ≤ 9999 ∧ 1 ≤ c.2.1 ∧ c.2.1 ≤ 12 ∧ 1 ≤ c.2.2 ∧ c.2.2 ≤ 31

instance (c : Int × Int × Int) : Decidable (keyRange c) := by
  unfold keyRange
  infer_instance

/-- Decimal digit characters determine the digit. -/
lemma digitChar_injOn : ∀ a, a < 10 → ∀ b, b < 10 →
    Nat.digitChar a = Nat.digitChar b → a = b := by decide

/-- Two in-range `YYYY-MM-DD` renderings agree only when year, month and
day all agree. -/
lemma dateKey_digits_inj (y1 m1 d1 y2 m2 d2 : Nat)
    (hy1 : y1 ≤ 9999) (hy2 : y2 ≤ 9999) (hm1 : m1 ≤ 99) (hm2 : m2 ≤ 99)
    (hd1 : d1 ≤ 99) (hd2 : d2 ≤ 99)
    (h : String.mk [Nat.digitChar (y1 / 1000 % 10), Nat.digitChar (y1 / 100 % 10),
            Nat.digitChar (y1 / 10 % 10), Nat.digitChar (y1 % 10), '-',
            Nat.digitChar (m1 / 10 % 10), Nat.digitChar (m1 % 10), '-',
            Nat.digitChar (d1 / 10 % 10), Nat.digitChar (d1 % 10)]
        = String.mk [Nat.digitChar (y2 / 1000 % 10), Nat.digitChar (y2 / 100 % 10),
            Nat.digitChar (y2 / 10 % 10), Nat.digitChar (y2 % 10), '-',
            Nat.digitChar (m2 / 10 % 10), Nat.digitChar (m2 % 10), '-',
            Nat.digitChar (d2 / 10 % 10), Nat.digitChar (d2 % 10)]) :
    y1 = y2 ∧ m1 = m2 ∧ d1 = d2 := by
  have hl := congrArg String.data h
  simp only [List.cons.injEq, and_true, true_and] at hl
  obtain ⟨e1, e2, e3, e4, e5, e6, e7, e8⟩ := hl
  have g1 := digitChar_injOn _ (by omega) _ (by omega) e1
  have g2 := digitChar_injOn _ (by omega) _ (by omega) e2
  have g3 := digitChar_injOn _ (by omega) _ (by omega) e3
  have g4 := digitChar_injOn _ (by omega) _ (by omega) e4
  have g5 := digitChar_injOn _ (by omega) _ (by omega) e5
  have g6 := digitChar_injOn _ (by omega) _ (by omega) e6
  have g7 := digitChar_injOn _ (by omega) _ (by omega) e7
  have g8 := digitChar_injOn _ (by omega) _ (by omega) e8
  refine ⟨by omega, by omega, by omega⟩

/-- C8: two instants receive the same `getDateKey` string iff they fall
on the same local calendar day in the target timezone; concretely, the
event at 2026-02-10T23:30:00-05:00 (source-zone date 2026-02-10) has
target-zone day 2026-02-11, gets key `2026-02-11`, and is bucketed by
the grouping under that day. -/
theorem getDateKey_same_iff :
    (∀ t1 t2 : Int, keyRange (getDateKeyTriple t1) → keyRange (getDateKeyTriple t2) →
        (getDateKey t1 = getDateKey t2 ↔ getDateKeyTriple t1 = getDateKeyTriple t2))
    ∧ getDateKey 1770784200000 = "2026-02-11"
    ∧ getDateKeyTriple 1770784200000 = (2026, 2, 11)
    ∧ civilAt (-5 * 3600000) 1770784200000 = (2026, 2, 10)
    ∧ groupByDateKey [evHigh] = [((2026, 2, 11), [evHigh])] := by
  refine ⟨?_, by decide, by decide, by decide, by decide⟩
  intro t1 t2 h1 h2
  constructor
  · intro hk
    obtain ⟨hy1a, hy1b, hm1a, hm1b, hd1a, hd1b⟩ := h1
    obtain ⟨hy2a, hy2b, hm2a, hm2b, hd2a, hd2b⟩ := h2
    unfold getDateKey at hk
    obtain ⟨ey, em, ed⟩ := dateKey_digits_inj _ _ _ _ _ _
      (by omega) (by omega) (by omega) (by omega) (by omega) (by omega) hk
    have hy : (getDateKeyTriple t1).1 = (getDateKeyTriple t2).1 := by omega
    have hm : (getDateKeyTriple t1).2.1 = (getDateKeyTriple t2).2.1 := by omega
    have hd : (getDateKeyTriple t1).2.2 = (getDateKeyTriple t2).2.2 := by omega
    exact Prod.ext hy (Prod.ext hm hd)
  · intro he
    unfold getDateKey
    rw [he]

/-- C8 witness: two concrete instants seven hours apart on the same
Indochina-time day get the same key. -/
theorem getDateKey_same_iff_witness :
    getDateKey 1770784200000 = getDateKey 1770809400000 :=
  (getDateKey_same_iff.1 1770784200000 1770809400000 (by decide) (by decide)).mpr (by decide)

end EcoNews
